import Mathlib

/-!
Verification of the `logg` write pipeline (package `logg`, used by the
`logit` server): log levels, the single-consumer write actor, size-based
file rotation with cascading renames, and optional background gzip
compression of retired segments.

The Go source is shallowly embedded: the filesystem is a finite
association list from file names to file data (an inode id plus a byte
size), goroutine effects are explicit state-passing functions, channels
become an explicit event trace produced by the sequential actor loop, and
Go `int64` values become `Int` (no arithmetic in the source can overflow
at the sizes the claims quantify over).

File names built by `fmt.Sprintf` in the source (`"%s.%d"`, `"%s.%d.gz"`)
are embedded as an inductive type with one constructor per shape; distinct
shapes over the same base path are distinct strings in Go, which the
constructor discipline mirrors.
-/

namespace Logg

/-- Go: `LOG_LEVEL_DEBUG LogLevel = 1 << iota` with `_ = iota` first, so
DEBUG = 2, INFO = 4, WARN = 8, ERROR = 16, FATAL = 32. -/
def LOG_LEVEL_DEBUG : Int := 2

def LOG_LEVEL_INFO : Int := 4

def LOG_LEVEL_WARN : Int := 8

def LOG_LEVEL_ERROR : Int := 16

def LOG_LEVEL_FATAL : Int := 32

/-- File names the rotation engine manipulates: the active file `<p>`,
a retired segment `<p>.<i>`, or a compressed retired segment `<p>.<i>.gz`. -/
inductive FName where
  | base (p : String)
  | idx (p : String) (i : Nat)
  | idxGz (p : String) (i : Nat)
deriving DecidableEq

/-- An on-disk file: an inode identity and a byte size. -/
structure FileData where
  ino : Nat
  size : Nat
deriving DecidableEq

/-- The filesystem: named files, a list of paths where `os.OpenFile`
fails, a flag making `io.Copy` inside the gzip task fail, the set of
inode ids whose handles have been closed, and a fresh-inode counter. -/
structure FS where
  files : List (FName × FileData)
  badOpen : List FName
  gzCopyFails : Bool
  closed : List Nat
  fresh : Nat
deriving DecidableEq

namespace FS

/-- Association-list lookup by file name. -/
def lookupA (l : List (FName × FileData)) (n : FName) : Option FileData :=
  match l with
  | [] => none
  | (k, d) :: rest => if k = n then some d else lookupA rest n

/-- Remove every entry named `n`. -/
def eraseA (l : List (FName × FileData)) (n : FName) : List (FName × FileData) :=
  match l with
  | [] => []
  | (k, d) :: rest => if k = n then eraseA rest n else (k, d) :: eraseA rest n

def lookup (fs : FS) (n : FName) : Option FileData :=
  lookupA fs.files n

/-- Go `os.Stat` success. -/
def statExists (fs : FS) (n : FName) : Bool :=
  (fs.lookup n).isSome

def erase (fs : FS) (n : FName) : FS :=
  { fs with files := eraseA fs.files n }

/-- Install file data under name `n`, replacing any previous entry. -/
def setFile (fs : FS) (n : FName) (d : FileData) : FS :=
  { fs with files := (n, d) :: eraseA fs.files n }

/-- Go `os.Rename(o, n)`: moves the file if the source exists (keeping its
inode), silently overwriting any file at the destination; on a missing
source it fails, and every caller in the source discards the error. -/
def rename (fs : FS) (o n : FName) : FS :=
  match fs.lookup o with
  | none => fs
  | some d => (fs.erase o).setFile n d

/-- Go `os.Remove`. -/
def remove (fs : FS) (n : FName) : FS :=
  fs.erase n

/-- Go `os.OpenFile(n, O_CREATE|O_APPEND|O_WRONLY, 0644)`: fails on the
configured bad paths, otherwise returns the (possibly just created) file's
inode as the handle. -/
def openCreateAppend (fs : FS) (n : FName) : Option (FS × Nat) :=
  if fs.badOpen.contains n then none
  else
    match fs.lookup n with
    | some d => some (fs, d.ino)
    | none => some ({ fs with files := (n, ⟨fs.fresh, 0⟩) :: fs.files, fresh := fs.fresh + 1 }, fs.fresh)

/-- Mark a handle's inode closed (Go `Close()` on the rotation closer). -/
def closeIno (fs : FS) (ino : Nat) : FS :=
  { fs with closed := ino :: fs.closed }

/-- Append `n` bytes through an open handle: grows the file that still has
this inode; a write through a closed handle fails (and `log.Logger`
discards the error), so it changes nothing. -/
def writeIno (fs : FS) (ino : Nat) (n : Nat) : FS :=
  if fs.closed.contains ino then fs
  else { fs with files := fs.files.map (fun e => if e.2.ino = ino then (e.1, ⟨e.2.ino, e.2.size + n⟩) else e) }

end FS

/-- The Go `Logger` struct: level threshold, formatted golog prefix string
(field `prefix` in the source), the embedded `log.Logger` (its target
handle's inode, `none` when nil), the rotation closer handle, the rotation
threshold `maxSize`, the compression flag, the rotated path, and the byte
counter `written`. -/
structure Logger where
  level : Int
  pfx : String
  l : Option Nat
  closer : Option Nat
  maxSize : Int
  enableGz : Bool
  filepath : String
  written : Int
deriving DecidableEq

/-- A queued write request (Go `logToken`): an optional target logger
(identified by key into the actor's logger store; `none` is a flush
marker), the message, and whether an acknowledgment channel is attached. -/
structure LogToken where
  logger : Option Nat
  msg : String
  ch : Bool
deriving DecidableEq

/-- Go `fmt.Sprintf("[%-10s] ", prefix)` body: left-justify, pad with
spaces to width 10. -/
def padRightTo10 (s : String) : String :=
  s ++ String.mk (List.replicate (10 - s.length) ' ')

/-- Go `newLogger`: normalize the level (any value outside the five
constants becomes DEBUG) and format the prefix. Remaining fields are Go
zero values, overwritten by the public constructors. -/
def newLogger (pfx : String) (allowedLogLevel : Int) : Logger :=
  let lv :=
    if allowedLogLevel = LOG_LEVEL_DEBUG ∨ allowedLogLevel = LOG_LEVEL_ERROR ∨
        allowedLogLevel = LOG_LEVEL_FATAL ∨ allowedLogLevel = LOG_LEVEL_INFO ∨
        allowedLogLevel = LOG_LEVEL_WARN then
      allowedLogLevel
    else LOG_LEVEL_DEBUG
  { level := lv
    pfx := if pfx = "" then "" else "[" ++ padRightTo10 pfx ++ "] "
    l := none, closer := none, maxSize := 0, enableGz := false
    filepath := "", written := 0 }

/-- Go `NewLogger`: a stream logger onto writer `w` (its sink modelled by
an inode id); rotation disabled. Never fails. -/
def NewLogger (pfx : String) (w : Nat) (allowedLogLevel : Int) : Logger :=
  let lg := newLogger pfx allowedLogLevel
  { lg with l := some w, closer := none, maxSize := -1, written := 0, enableGz := false }

/-- Go `NewFileLogger`: clamp a negative `maxSize` to -1, open the file in
create/append mode (propagating failure), seed `written` from the file's
current size via `Stat`. -/
def NewFileLogger (fs : FS) (pfx filepath : String) (allowedLogLevel maxSize : Int)
    (enableGz : Bool) : Option (FS × Logger) :=
  let ms := if maxSize < 0 then (-1 : Int) else maxSize
  match fs.openCreateAppend (FName.base filepath) with
  | none => none
  | some (fs1, ino) =>
    let size := match fs1.lookup (FName.base filepath) with
      | some d => d.size
      | none => 0
    let lg := newLogger pfx allowedLogLevel
    some (fs1, { lg with l := some ino, closer := some ino, maxSize := ms,
                         written := (size : Int), enableGz := enableGz, filepath := filepath })

/-- The actor's replacer `strings.NewReplacer("\n", "\n" + 13 spaces)`
applied to the character list of a message. -/
def replaceNLChars : List Char → List Char
  | [] => []
  | c :: rest =>
    if c = '\n' then c :: (List.replicate 13 ' ' ++ replaceNLChars rest)
    else c :: replaceNLChars rest

def replaceNL (s : String) : String :=
  String.mk (replaceNLChars s.data)

/-- The level tag chosen by the Go `setMessagePrefix` switch (empty for a
value outside the five constants, as the Go switch leaves it). -/
def levelTag (level : Int) : String :=
  if level = LOG_LEVEL_DEBUG then "(DEBG) "
  else if level = LOG_LEVEL_INFO then "(INFO) "
  else if level = LOG_LEVEL_WARN then "(WARN) "
  else if level = LOG_LEVEL_ERROR then "(ERRO) "
  else if level = LOG_LEVEL_FATAL then "(FATL) "
  else ""

/-- Go `setMessagePrefix`: prepend the level tag to the format string. -/
def setMessageTag (msg : String) (level : Int) : String :=
  levelTag level ++ msg

/-- Go `newLogToken` for a non-nil logger. -/
def newLogToken (lid : Nat) (hasCh : Bool) (msg : String) : LogToken :=
  ⟨some lid, msg, hasCh⟩

/-- Go `Logger._printf`: returns the token submitted to `actor_in`, or
`none` when the message is suppressed (`logger.level > level`). The `wait`
flag is exactly "an acknowledgment channel is attached and the caller
blocks on it". -/
def printfStep (lg : Logger) (lid : Nat) (level : Int) (wait : Bool) (msg : String) :
    Option LogToken :=
  if lg.level > level then none
  else some (newLogToken lid wait msg)

def Debugf (lg : Logger) (lid : Nat) (msg : String) : Option LogToken :=
  printfStep lg lid LOG_LEVEL_DEBUG false (setMessageTag msg LOG_LEVEL_DEBUG)

def Infof (lg : Logger) (lid : Nat) (msg : String) : Option LogToken :=
  printfStep lg lid LOG_LEVEL_INFO false (setMessageTag msg LOG_LEVEL_INFO)

def Warnf (lg : Logger) (lid : Nat) (msg : String) : Option LogToken :=
  printfStep lg lid LOG_LEVEL_WARN false (setMessageTag msg LOG_LEVEL_WARN)

def Errorf (lg : Logger) (lid : Nat) (msg : String) : Option LogToken :=
  printfStep lg lid LOG_LEVEL_ERROR false (setMessageTag msg LOG_LEVEL_ERROR)

/-- A producer-side emit: the submitted token (with its blocking flag) and
whether the call raises a terminal condition after its wait returns. -/
structure EmitCall where
  token : Option LogToken
  raisesAfter : Bool
deriving DecidableEq

/-- Go `Logger.Fatalf` in the current `logg` (the version `logit` builds
against, the one providing `NewFileLogger`): a blocking submit; the
`panic(s)` that would follow is commented out in the source, so the call
raises nothing after its wait returns. -/
def Fatalf (lg : Logger) (lid : Nat) (msg : String) : EmitCall :=
  ⟨printfStep lg lid LOG_LEVEL_FATAL true (setMessageTag msg LOG_LEVEL_FATAL), false⟩

/-- `Logger.Fatalf` of the stale vendored `logg` copy under Godeps: the
same blocking submit, followed by a live `panic(s)`. -/
def vendoredFatalf (lg : Logger) (lid : Nat) (msg : String) : EmitCall :=
  ⟨printfStep lg lid LOG_LEVEL_FATAL true (setMessageTag msg LOG_LEVEL_FATAL), true⟩

/-- Go `Flush()`: the token `&logToken{nil, "", ch}` — nil logger, empty
message, acknowledgment channel attached. -/
def flushToken : LogToken :=
  ⟨none, "", true⟩

/-- The file name probed and renamed by the rotation loops:
`"%s.%d.gz"` when compression is enabled, else `"%s.%d"`. -/
def segName (lg : Logger) (i : Nat) : FName :=
  if lg.enableGz then FName.idxGz lg.filepath i else FName.idx lg.filepath i

/-- The "find latest file" loop of `refresh`: starting at index `i` with
accumulator `maxI`, records each index whose probe succeeds and stops at
the first missing one. The Go loop is unbounded; the fuel passed by
`refresh` exceeds the number of files, which bounds how many consecutive
probes can succeed. -/
def findMaxI (fs : FS) (lg : Logger) : Nat → Nat → Option Nat → Option Nat
  | 0, _, maxI => maxI
  | fuel + 1, i, maxI =>
    if fs.statExists (segName lg i) then findMaxI fs lg fuel (i + 1) (some i)
    else maxI

/-- The cascade loop `for i = maxI; i >= 0; i--`: rename segment `i` to
segment `i+1`, highest index first. -/
def cascade (lg : Logger) (fs : FS) : Nat → FS
  | 0 => fs.rename (segName lg 0) (segName lg 1)
  | i + 1 => cascade lg (fs.rename (segName lg (i + 1)) (segName lg (i + 2))) i

/-- Result of `refresh`: the filesystem, the logger (mutated in place in
Go), the returned error, and whether a background compression goroutine
was spawned. -/
structure Refreshed where
  fs : FS
  lg : Logger
  err : Bool
  gzSpawned : Bool
deriving DecidableEq

/-- Go `Logger.refresh`: no-op unless `maxSize > 0` and
`written > maxSize`; otherwise close the current stream, probe for the
highest retired index, cascade-rename upward, move the active file to
`<path>.0`, spawn compression if enabled, and reopen `<path>` — on reopen
failure return the error with the logger's fields untouched. -/
def refresh (fs : FS) (lg : Logger) : Refreshed :=
  if lg.maxSize ≤ 0 ∨ lg.written ≤ lg.maxSize then ⟨fs, lg, false, false⟩
  else
    let fs1 := match lg.closer with
      | some c => fs.closeIno c
      | none => fs
    let maxI := findMaxI fs1 lg (fs1.files.length + 1) 0 none
    let fs2 := match maxI with
      | none => fs1
      | some m => cascade lg fs1 m
    let fs3 := fs2.rename (FName.base lg.filepath) (FName.idx lg.filepath 0)
    match fs3.openCreateAppend (FName.base lg.filepath) with
    | none => ⟨fs3, lg, true, lg.enableGz⟩
    | some (fs4, ino) =>
      ⟨fs4, { lg with l := some ino, closer := some ino, written := 0 }, false, lg.enableGz⟩

/-- The background compression goroutine spawned by `refresh`: open
`<path>.0` (give up silently if that fails); from then on a deferred
cleanup closes the source and removes `<path>.0` no matter what; open
`<path>.0.gz` (on failure, return — the deferred cleanup still deletes
`<path>.0`); gzip-copy (a copy failure likewise reaches the deferred
cleanup, leaving a partial `.gz`). -/
def compressTask (fs : FS) (p : String) : FS :=
  let oldpath := FName.idx p 0
  let newpath := FName.idxGz p 0
  match fs.lookup oldpath with
  | none => fs
  | some d =>
    if fs.badOpen.contains newpath then fs.remove oldpath
    else
      let fs1 := { fs.setFile newpath ⟨fs.fresh, if fs.gzCopyFails then 0 else d.size⟩ with
                   fresh := fs.fresh + 1 }
      fs1.remove oldpath

/-- State owned by the write actor: the filesystem and the loggers the
queued tokens point at (Go tokens hold pointers; here, keys into this
store). -/
structure ActorState where
  fs : FS
  loggers : List (Nat × Logger)
deriving DecidableEq

def lookupLg (l : List (Nat × Logger)) (k : Nat) : Option Logger :=
  match l with
  | [] => none
  | (k', lg) :: rest => if k' = k then some lg else lookupLg rest k

def setLg (l : List (Nat × Logger)) (k : Nat) (lg : Logger) : List (Nat × Logger) :=
  l.map (fun e => if e.1 = k then (k, lg) else e)

/-- Observable actions of one actor iteration, in the order they happen:
a `Println` write on behalf of a logger, then the acknowledgment sent on
the token's channel. -/
inductive Event where
  | wrote (lid : Nat) (bytes : Nat)
  | acked
deriving DecidableEq

/-- Bytes `log.Logger.Println` emits for one message with flags
`Ldate|Lmicroseconds`: prefix, formatted timestamp header, message,
trailing newline. -/
def lineBytes (pfx hdr msg : String) : Nat :=
  pfx.length + hdr.length + msg.length + 1

/-- One iteration of the actor loop for one dequeued token: re-indent
embedded newlines; if a target logger is present, run `refresh`
(discarding its error), and if the embedded `log.Logger` is non-nil,
write the line and add the re-indented message length to `written`;
finally fire the acknowledgment if a channel is attached. `hdr` is the
timestamp header the embedded `log.Logger` stamps on the line. The
store-miss branch is unreachable from Go, where the token holds a live
pointer. -/
def actorStep (hdr : String) (s : ActorState) (t : LogToken) : ActorState × List Event :=
  let msg := replaceNL t.msg
  let r1 :=
    match t.logger with
    | none => (s, ([] : List Event))
    | some lid =>
      match lookupLg s.loggers lid with
      | none => (s, [])
      | some lg =>
        let r := refresh s.fs lg
        match r.lg.l with
        | none => (⟨r.fs, setLg s.loggers lid r.lg⟩, [])
        | some ino =>
          let bytes := lineBytes r.lg.pfx hdr msg
          let lg2 := { r.lg with written := r.lg.written + (msg.length : Int) }
          (⟨r.fs.writeIno ino bytes, setLg s.loggers lid lg2⟩, [Event.wrote lid bytes])
  (r1.1, r1.2 ++ (if t.ch then [Event.acked] else []))

/-- The actor loop run over a finite queue of tokens, in FIFO order,
collecting the event trace. -/
def runQueue (hdr : String) (s : ActorState) : List LogToken → ActorState × List Event
  | [] => (s, [])
  | t :: ts =>
    let r1 := actorStep hdr s t
    let r2 := runQueue hdr r1.1 ts
    (r2.1, r1.2 ++ r2.2)

/-! ### Staged view of `refresh` (definitionally equal restatement used by
proofs) and concrete instances evaluated by witnesses and counterexamples -/

/-- Stage 1 of a firing `refresh`: close the current stream. -/
def rotateClose (fs : FS) (lg : Logger) : FS :=
  match lg.closer with
  | some c => fs.closeIno c
  | none => fs

/-- Stages 1-4 of a firing `refresh`: close, probe, cascade, and move the
active file to `<path>.0`. -/
def rotateRenamed (fs : FS) (lg : Logger) : FS :=
  (match findMaxI (rotateClose fs lg) lg ((rotateClose fs lg).files.length + 1) 0 none with
   | none => rotateClose fs lg
   | some m => cascade lg (rotateClose fs lg) m).rename
    (FName.base lg.filepath) (FName.idx lg.filepath 0)

/-- A gz-enabled file logger mid-rotation race: its first retired segment
`log.0` (inode 7) is still uncompressed, `log.0.gz` does not exist yet. -/
def lgC4 : Logger :=
  { level := 2, pfx := "", l := some 10, closer := some 10, maxSize := 1,
    enableGz := true, filepath := "log", written := 2 }

def fsC4 : FS :=
  { files := [(FName.base "log", ⟨10, 5⟩), (FName.idx "log" 0, ⟨7, 9⟩)],
    badOpen := [], gzCopyFails := false, closed := [], fresh := 20 }

/-- A DEBUG-threshold stream logger (counterexample input for `Fatalf`). -/
def lgC5 : Logger := NewLogger "" 9 LOG_LEVEL_DEBUG

/-- A filesystem with an uncompressed retired segment whose `.gz`
destination cannot be opened. -/
def fsC6 : FS :=
  { files := [(FName.idx "log" 0, ⟨7, 9⟩)], badOpen := [FName.idxGz "log" 0],
    gzCopyFails := false, closed := [], fresh := 20 }

/-- A filesystem with an uncompressed retired segment whose `.gz`
destination opens fine. -/
def fsW6 : FS :=
  { files := [(FName.idx "log" 0, ⟨7, 9⟩)], badOpen := [],
    gzCopyFails := false, closed := [], fresh := 20 }

/-- A rotation-enabled file logger far below its threshold, plus an actor
state and timestamp header, used to evaluate one write concretely. -/
def lgC7 : Logger :=
  { level := 2, pfx := "[abc       ] ", l := some 10, closer := some 10, maxSize := 100,
    enableGz := false, filepath := "log", written := 0 }

def sC7 : ActorState :=
  ⟨{ files := [(FName.base "log", ⟨10, 5⟩)], badOpen := [], gzCopyFails := false,
     closed := [], fresh := 20 }, [(0, lgC7)]⟩

def hdrC7 : String := "2009/01/23 01:23:23.123123 "

/-- A rotation-disabled (`maxSize = -1`) file logger and a state holding
only it, used to evaluate the disabled-rotation scenario concretely. -/
def lgW2 : Logger :=
  { level := 2, pfx := "", l := some 10, closer := some 10, maxSize := -1,
    enableGz := false, filepath := "log", written := 3 }

def sW2 : ActorState :=
  ⟨{ files := [(FName.base "log", ⟨10, 5⟩)], badOpen := [], gzCopyFails := false,
     closed := [], fresh := 20 }, [(0, lgW2)]⟩

/-- A rotating logger over a one-segment chain (`log` and `log.0`
present, `log.1` absent). -/
def lgW3 : Logger :=
  { level := 2, pfx := "", l := some 10, closer := some 10, maxSize := 1,
    enableGz := false, filepath := "log", written := 2 }

def fsW3 : FS :=
  { files := [(FName.base "log", ⟨10, 5⟩), (FName.idx "log" 0, ⟨7, 9⟩)],
    badOpen := [], gzCopyFails := false, closed := [], fresh := 20 }

/-- A WARN-threshold stream logger. -/
def lgW8 : Logger := NewLogger "" 3 LOG_LEVEL_WARN

/-- A rotating logger whose base path cannot be reopened. -/
def lgW10 : Logger :=
  { level := 2, pfx := "", l := some 10, closer := some 10, maxSize := 1,
    enableGz := false, filepath := "log", written := 2 }

def fsW10 : FS :=
  { files := [(FName.base "log", ⟨10, 5⟩)], badOpen := [FName.base "log"],
    gzCopyFails := false, closed := [], fresh := 20 }

/-! ### Association-list and filesystem-operation lemmas -/

namespace FS

theorem lookupA_eraseA_self (l : List (FName × FileData)) (n : FName) :
    lookupA (eraseA l n) n = none := by
  induction l with
  | nil => rfl
  | cons e rest ih =>
    obtain ⟨k, d⟩ := e
    by_cases h : k = n
    · simpa [eraseA, h] using ih
    · simp [eraseA, lookupA, h, ih]

theorem lookupA_eraseA_ne (l : List (FName × FileData)) (n m : FName) (h : m ≠ n) :
    lookupA (eraseA l n) m = lookupA l m := by
  induction l with
  | nil => rfl
  | cons e rest ih =>
    obtain ⟨k, d⟩ := e
    by_cases hk : k = n
    · subst hk
      simp [eraseA, lookupA, Ne.symm h, ih]
    · by_cases hm : k = m <;> simp [eraseA, lookupA, hk, hm, h, ih]

theorem lookup_setFile_self (fs : FS) (n : FName) (d : FileData) :
    (fs.setFile n d).lookup n = some d := by
  simp [setFile, lookup, lookupA]

theorem lookup_setFile_ne (fs : FS) (n m : FName) (d : FileData) (h : m ≠ n) :
    (fs.setFile n d).lookup m = fs.lookup m := by
  simp [setFile, lookup, lookupA, Ne.symm h, lookupA_eraseA_ne _ _ _ h]

theorem lookup_erase_self (fs : FS) (n : FName) : (fs.erase n).lookup n = none := by
  simp [erase, lookup, lookupA_eraseA_self]

theorem lookup_erase_ne (fs : FS) (n m : FName) (h : m ≠ n) :
    (fs.erase n).lookup m = fs.lookup m := by
  simp [erase, lookup, lookupA_eraseA_ne _ _ _ h]

theorem rename_of_none (fs : FS) (o n : FName) (h : fs.lookup o = none) :
    fs.rename o n = fs := by
  simp [rename, h]

theorem lookup_rename_target (fs : FS) (o n : FName) (d : FileData)
    (h : fs.lookup o = some d) :
    (fs.rename o n).lookup n = some d := by
  simp [rename, h, lookup_setFile_self]

theorem lookup_rename_other (fs : FS) (o n m : FName) (h1 : m ≠ o) (h2 : m ≠ n) :
    (fs.rename o n).lookup m = fs.lookup m := by
  unfold rename
  cases h : fs.lookup o with
  | none => rfl
  | some d => rw [lookup_setFile_ne _ _ _ _ h2, lookup_erase_ne _ _ _ h1]

theorem lookup_rename_source (fs : FS) (o n : FName) (hne : o ≠ n) :
    (fs.rename o n).lookup o = none := by
  unfold rename
  cases h : fs.lookup o with
  | none => exact h
  | some d => rw [lookup_setFile_ne _ _ _ _ hne, lookup_erase_self]

theorem remove_eq (fs : FS) (n : FName) : fs.remove n = fs.erase n := rfl

theorem lookup_closeIno (fs : FS) (c : Nat) (n : FName) :
    (fs.closeIno c).lookup n = fs.lookup n := rfl

@[simp] theorem files_closeIno (fs : FS) (c : Nat) : (fs.closeIno c).files = fs.files := rfl

@[simp] theorem badOpen_closeIno (fs : FS) (c : Nat) : (fs.closeIno c).badOpen = fs.badOpen := rfl

@[simp] theorem badOpen_erase (fs : FS) (n : FName) : (fs.erase n).badOpen = fs.badOpen := rfl

@[simp] theorem badOpen_setFile (fs : FS) (n : FName) (d : FileData) :
    (fs.setFile n d).badOpen = fs.badOpen := rfl

@[simp] theorem badOpen_rename (fs : FS) (o n : FName) :
    (fs.rename o n).badOpen = fs.badOpen := by
  unfold rename
  cases fs.lookup o <;> rfl

@[simp] theorem closed_erase (fs : FS) (n : FName) : (fs.erase n).closed = fs.closed := rfl

@[simp] theorem closed_setFile (fs : FS) (n : FName) (d : FileData) :
    (fs.setFile n d).closed = fs.closed := rfl

@[simp] theorem closed_rename (fs : FS) (o n : FName) :
    (fs.rename o n).closed = fs.closed := by
  unfold rename
  cases fs.lookup o <;> rfl

@[simp] theorem closed_closeIno (fs : FS) (c : Nat) :
    (fs.closeIno c).closed = c :: fs.closed := rfl

theorem lookup_openCreateAppend_other (fs fs' : FS) (n m : FName) (ino : Nat)
    (h : fs.openCreateAppend n = some (fs', ino)) (hne : m ≠ n) :
    fs'.lookup m = fs.lookup m := by
  unfold openCreateAppend at h
  split at h
  · simp at h
  · cases hl : fs.lookup n with
    | some d => rw [hl] at h; simp at h; rw [← h.1]
    | none =>
      rw [hl] at h
      simp at h
      rw [← h.1]
      simp [lookup, lookupA, Ne.symm hne]

theorem mem_keys_of_lookupA_some (l : List (FName × FileData)) (n : FName) (d : FileData)
    (h : lookupA l n = some d) : n ∈ l.map Prod.fst := by
  induction l with
  | nil => simp [lookupA] at h
  | cons e rest ih =>
    obtain ⟨k, v⟩ := e
    by_cases hk : k = n
    · simp [hk]
    · simp only [lookupA, hk, if_false] at h
      simp [ih h]

theorem lookupA_writeMap (l : List (FName × FileData)) (ino b : Nat) (n : FName) :
    (lookupA (l.map (fun e => if e.2.ino = ino then (e.1, ⟨e.2.ino, e.2.size + b⟩) else e)) n).isSome
      = (lookupA l n).isSome := by
  induction l with
  | nil => rfl
  | cons e rest ih =>
    obtain ⟨k, d⟩ := e
    simp only [List.map_cons]
    by_cases hi : d.ino = ino
    · rw [if_pos hi]
      by_cases hk : k = n <;> simp [lookupA, hk, ih]
    · rw [if_neg hi]
      by_cases hk : k = n <;> simp [lookupA, hk, ih]

theorem statExists_writeIno (fs : FS) (ino b : Nat) (n : FName) :
    (fs.writeIno ino b).statExists n = fs.statExists n := by
  unfold writeIno
  split
  · rfl
  · simpa [statExists, lookup] using lookupA_writeMap fs.files ino b n

end FS

/-- The per-index rotation names are injective in the index. -/
theorem segName_inj (lg : Logger) (i j : Nat) (h : segName lg i = segName lg j) : i = j := by
  unfold segName at h
  cases hgz : lg.enableGz <;> simp [hgz] at h <;> exact h

theorem segName_ne_base (lg : Logger) (i : Nat) (q : String) :
    segName lg i ≠ FName.base q := by
  unfold segName
  cases lg.enableGz <;> simp

theorem segName_ne_idx0_of_pos (lg : Logger) (i : Nat) (q : String) (h : 0 < i) :
    segName lg i ≠ FName.idx q 0 := by
  unfold segName
  cases lg.enableGz
  · simp only [Bool.false_eq_true, if_false, ne_eq, FName.idx.injEq, not_and]
    intro _
    omega
  · simp

theorem lookupLg_cons (k' : Nat) (w : Logger) (rest : List (Nat × Logger)) (lid : Nat) :
    lookupLg ((k', w) :: rest) lid = if k' = lid then some w else lookupLg rest lid := rfl

theorem setLg_cons (k' : Nat) (w : Logger) (rest : List (Nat × Logger)) (k : Nat) (v : Logger) :
    setLg ((k', w) :: rest) k v = (if k' = k then (k, v) else (k', w)) :: setLg rest k v := rfl

theorem lookupLg_setLg_cases (l : List (Nat × Logger)) (k lid : Nat) (v lg' : Logger)
    (h : lookupLg (setLg l k v) lid = some lg') :
    lg' = v ∨ lookupLg l lid = some lg' := by
  induction l with
  | nil => simp [setLg, lookupLg] at h
  | cons e rest ih =>
    obtain ⟨k', w⟩ := e
    rw [setLg_cons] at h
    by_cases hk : k' = k
    · rw [if_pos hk, lookupLg_cons] at h
      by_cases hd : k = lid
      · rw [if_pos hd] at h
        exact Or.inl (Option.some.inj h).symm
      · rw [if_neg hd] at h
        rcases ih h with h' | h'
        · exact Or.inl h'
        · right
          rw [lookupLg_cons, if_neg (hk ▸ hd)]
          exact h'
    · rw [if_neg hk, lookupLg_cons] at h
      by_cases hd : k' = lid
      · rw [if_pos hd] at h
        right
        rw [lookupLg_cons, if_pos hd]
        exact h
      · rw [if_neg hd] at h
        rcases ih h with h' | h'
        · exact Or.inl h'
        · right
          rw [lookupLg_cons, if_neg hd]
          exact h'

theorem lookupLg_setLg_self (l : List (Nat × Logger)) (k : Nat) (v lg : Logger)
    (h : lookupLg l k = some lg) : lookupLg (setLg l k v) k = some v := by
  induction l with
  | nil => simp [lookupLg] at h
  | cons e rest ih =>
    obtain ⟨k', w⟩ := e
    rw [setLg_cons]
    by_cases hk : k' = k
    · rw [if_pos hk, lookupLg_cons, if_pos rfl]
    · rw [if_neg hk, lookupLg_cons, if_neg hk]
      rw [lookupLg_cons, if_neg hk] at h
      exact ih h

/-! ### Rotation-loop lemmas -/

theorem cascade_lookup_other (lg : Logger) (m : Nat) :
    ∀ (fs : FS) (n : FName), (∀ j, j ≤ m + 1 → n ≠ segName lg j) →
      (cascade lg fs m).lookup n = fs.lookup n := by
  induction m with
  | zero =>
    intro fs n h
    exact FS.lookup_rename_other _ _ _ _ (h 0 (by omega)) (h 1 (by omega))
  | succ m ih =>
    intro fs n h
    rw [show cascade lg fs (m + 1)
          = cascade lg (fs.rename (segName lg (m + 1)) (segName lg (m + 2))) m from rfl]
    rw [ih _ _ (fun j hj => h j (by omega))]
    exact FS.lookup_rename_other _ _ _ _ (h (m + 1) (by omega)) (h (m + 2) (by omega))

theorem cascade_badOpen (lg : Logger) (m : Nat) :
    ∀ fs : FS, (cascade lg fs m).badOpen = fs.badOpen := by
  induction m with
  | zero => intro fs; simp [cascade]
  | succ m ih =>
    intro fs
    rw [show cascade lg fs (m + 1)
          = cascade lg (fs.rename (segName lg (m + 1)) (segName lg (m + 2))) m from rfl, ih]
    simp

theorem cascade_closed (lg : Logger) (m : Nat) :
    ∀ fs : FS, (cascade lg fs m).closed = fs.closed := by
  induction m with
  | zero => intro fs; simp [cascade]
  | succ m ih =>
    intro fs
    rw [show cascade lg fs (m + 1)
          = cascade lg (fs.rename (segName lg (m + 1)) (segName lg (m + 2))) m from rfl, ih]
    simp

/-- The descending order of the cascade: after `cascade` runs, segment
`i+1` holds exactly what segment `i` held before, for every `i ≤ maxI` —
no rename clobbered a not-yet-moved file. -/
theorem cascade_shift (lg : Logger) (m : Nat) :
    ∀ fs : FS, (∀ i, i ≤ m → (fs.lookup (segName lg i)).isSome = true) →
      ∀ i, i ≤ m → (cascade lg fs m).lookup (segName lg (i + 1)) = fs.lookup (segName lg i) := by
  induction m with
  | zero =>
    intro fs hall i hi
    have hz : i = 0 := Nat.le_zero.mp hi
    subst hz
    obtain ⟨d, hd⟩ := Option.isSome_iff_exists.mp (hall 0 le_rfl)
    rw [show cascade lg fs 0 = fs.rename (segName lg 0) (segName lg 1) from rfl]
    rw [FS.lookup_rename_target _ _ _ _ hd, hd]
  | succ m ih =>
    intro fs hall i hi
    rw [show cascade lg fs (m + 1)
          = cascade lg (fs.rename (segName lg (m + 1)) (segName lg (m + 2))) m from rfl]
    by_cases him : i = m + 1
    · subst him
      have hn : ∀ j, j ≤ m + 1 → segName lg (m + 1 + 1) ≠ segName lg j := by
        intro j hj heq
        have := segName_inj lg _ _ heq
        omega
      rw [cascade_lookup_other lg m _ _ hn]
      obtain ⟨d, hd⟩ := Option.isSome_iff_exists.mp (hall (m + 1) le_rfl)
      rw [FS.lookup_rename_target _ _ _ _ hd, hd]
    · have him' : i ≤ m := by omega
      have hall' : ∀ j, j ≤ m →
          (((fs.rename (segName lg (m + 1)) (segName lg (m + 2))).lookup (segName lg j)).isSome)
            = true := by
        intro j hj
        rw [FS.lookup_rename_other]
        · exact hall j (by omega)
        · intro heq; have := segName_inj lg _ _ heq; omega
        · intro heq; have := segName_inj lg _ _ heq; omega
      rw [ih _ hall' i him']
      rw [FS.lookup_rename_other]
      · intro heq; have := segName_inj lg _ _ heq; omega
      · intro heq; have := segName_inj lg _ _ heq; omega

/-- Correctness of the probe loop: if segments `0..m` exist and `m+1`
does not, the loop run with enough fuel reports `maxI = m` (and returns
its accumulator once started past the missing index). -/
theorem findMaxI_spec (fs : FS) (lg : Logger) (m : Nat)
    (hex : ∀ j, j ≤ m → fs.statExists (segName lg j) = true)
    (hmiss : fs.statExists (segName lg (m + 1)) = false) :
    ∀ (fuel i : Nat) (acc : Option Nat), m + 2 ≤ i + fuel → i ≤ m + 1 →
      findMaxI fs lg fuel i acc = if i ≤ m then some m else acc := by
  intro fuel
  induction fuel with
  | zero => intro i acc hfi hi; omega
  | succ fuel ih =>
    intro i acc hfi hi
    by_cases him : i ≤ m
    · rw [findMaxI, hex i him, if_pos rfl, ih (i + 1) (some i) (by omega) (by omega), if_pos him]
      by_cases h2 : i + 1 ≤ m
      · rw [if_pos h2]
      · rw [if_neg h2]
        have : i = m := by omega
        rw [this]
    · have : i = m + 1 := by omega
      subst this
      rw [findMaxI, hmiss]
      simp

/-- When segments `0..m` all exist, the filesystem holds at least `m+1`
entries: the fuel `refresh` hands the probe loop is therefore sufficient. -/
theorem chain_le_files_length (fs : FS) (lg : Logger) (m : Nat)
    (hex : ∀ j, j ≤ m → fs.statExists (segName lg j) = true) :
    m + 1 ≤ fs.files.length := by
  have hsub : ((List.range (m + 1)).map (fun i => segName lg i)) ⊆ fs.files.map Prod.fst := by
    intro n hn
    simp only [List.mem_map, List.mem_range] at hn
    obtain ⟨i, hi, rfl⟩ := hn
    have hsi := hex i (by omega)
    unfold FS.statExists FS.lookup at hsi
    obtain ⟨d, hd⟩ := Option.isSome_iff_exists.mp hsi
    exact FS.mem_keys_of_lookupA_some _ _ _ hd
  have hnd : ((List.range (m + 1)).map (fun i => segName lg i)).Nodup :=
    List.Nodup.map (fun a b hab => segName_inj lg a b hab) (List.nodup_range _)
  have hle := (hnd.subperm hsub).length_le
  simpa using hle

/-! ### Actor-loop lemmas -/

theorem runQueue_append (hdr : String) (a b : List LogToken) :
    ∀ s : ActorState,
      runQueue hdr s (a ++ b) =
        ((runQueue hdr (runQueue hdr s a).1 b).1,
          (runQueue hdr s a).2 ++ (runQueue hdr (runQueue hdr s a).1 b).2) := by
  induction a with
  | nil => intro s; simp [runQueue]
  | cons t ts ih =>
    intro s
    simp only [List.cons_append, runQueue]
    rw [show (ts.append b) = ts ++ b from rfl, ih]
    simp [List.append_assoc]

/-! ### Characterizations of `refresh` through its stages -/

theorem refresh_eq_of_rotate (fs : FS) (lg : Logger)
    (hc : ¬(lg.maxSize ≤ 0 ∨ lg.written ≤ lg.maxSize)) :
    refresh fs lg =
      match (rotateRenamed fs lg).openCreateAppend (FName.base lg.filepath) with
      | none => ⟨rotateRenamed fs lg, lg, true, lg.enableGz⟩
      | some (fs4, ino) =>
        ⟨fs4, { lg with l := some ino, closer := some ino, written := 0 }, false, lg.enableGz⟩ := by
  unfold refresh rotateRenamed rotateClose
  rw [if_neg hc]

theorem refresh_rotate_open_fail (fs : FS) (lg : Logger)
    (hc : ¬(lg.maxSize ≤ 0 ∨ lg.written ≤ lg.maxSize))
    (hoc : (rotateRenamed fs lg).openCreateAppend (FName.base lg.filepath) = none) :
    refresh fs lg = ⟨rotateRenamed fs lg, lg, true, lg.enableGz⟩ := by
  rw [refresh_eq_of_rotate fs lg hc, hoc]

theorem refresh_rotate_open_ok (fs : FS) (lg : Logger) (fs4 : FS) (ino : Nat)
    (hc : ¬(lg.maxSize ≤ 0 ∨ lg.written ≤ lg.maxSize))
    (hoc : (rotateRenamed fs lg).openCreateAppend (FName.base lg.filepath) = some (fs4, ino)) :
    refresh fs lg
      = ⟨fs4, { lg with l := some ino, closer := some ino, written := 0 }, false, lg.enableGz⟩ := by
  rw [refresh_eq_of_rotate fs lg hc, hoc]

theorem refresh_of_noop (fs : FS) (lg : Logger)
    (hc : lg.maxSize ≤ 0 ∨ lg.written ≤ lg.maxSize) :
    refresh fs lg = ⟨fs, lg, false, false⟩ := by
  unfold refresh
  rw [if_pos hc]

theorem lookup_rotateClose (fs : FS) (lg : Logger) (n : FName) :
    (rotateClose fs lg).lookup n = fs.lookup n := by
  unfold rotateClose
  cases lg.closer <;> rfl

theorem files_rotateClose (fs : FS) (lg : Logger) :
    (rotateClose fs lg).files = fs.files := by
  unfold rotateClose
  cases lg.closer <;> rfl

theorem badOpen_rotateClose (fs : FS) (lg : Logger) :
    (rotateClose fs lg).badOpen = fs.badOpen := by
  unfold rotateClose
  cases lg.closer <;> rfl

theorem statExists_rotateClose (fs : FS) (lg : Logger) (n : FName) :
    (rotateClose fs lg).statExists n = fs.statExists n := by
  unfold FS.statExists
  rw [lookup_rotateClose]

theorem badOpen_rotateRenamed (fs : FS) (lg : Logger) :
    (rotateRenamed fs lg).badOpen = fs.badOpen := by
  unfold rotateRenamed
  rcases h : findMaxI (rotateClose fs lg) lg ((rotateClose fs lg).files.length + 1) 0 none
    with _ | m <;>
    simp [h, cascade_badOpen, badOpen_rotateClose]

/-- With every logger's rotation disabled (`maxSize <= 0`), one actor
iteration changes no file name (sizes may grow) and keeps every stored
logger rotation-disabled. -/
theorem actorStep_disabled_preserves (hdr : String) (s : ActorState) (t : LogToken)
    (hdis : ∀ lid lg', lookupLg s.loggers lid = some lg' → lg'.maxSize ≤ 0) :
    (∀ n, (actorStep hdr s t).1.fs.statExists n = s.fs.statExists n)
    ∧ (∀ lid lg', lookupLg (actorStep hdr s t).1.loggers lid = some lg' → lg'.maxSize ≤ 0) := by
  cases ht : t.logger with
  | none =>
    constructor
    · intro n; simp [actorStep, ht]
    · intro lid lg' h
      apply hdis lid lg'
      simpa [actorStep, ht] using h
  | some lid =>
    cases hlk : lookupLg s.loggers lid with
    | none =>
      constructor
      · intro n; simp [actorStep, ht, hlk]
      · intro lid' lg' h
        apply hdis lid' lg'
        simpa [actorStep, ht, hlk] using h
    | some lg =>
      have hno : refresh s.fs lg = ⟨s.fs, lg, false, false⟩ :=
        refresh_of_noop _ _ (Or.inl (hdis lid lg hlk))
      cases hl : lg.l with
      | none =>
        constructor
        · intro n; simp [actorStep, ht, hlk, hno, hl]
        · intro lid' lg' h
          simp only [actorStep, ht, hlk, hno, hl] at h
          rcases lookupLg_setLg_cases _ _ _ _ _ h with h' | h'
          · rw [h']; exact hdis lid lg hlk
          · exact hdis lid' lg' h'
      | some ino =>
        constructor
        · intro n; simp [actorStep, ht, hlk, hno, hl, FS.statExists_writeIno]
        · intro lid' lg' h
          simp only [actorStep, ht, hlk, hno, hl] at h
          rcases lookupLg_setLg_cases _ _ _ _ _ h with h' | h'
          · rw [h']; exact hdis lid lg hlk
          · exact hdis lid' lg' h'

theorem closed_rotateRenamed (fs : FS) (lg : Logger) :
    (rotateRenamed fs lg).closed = (rotateClose fs lg).closed := by
  unfold rotateRenamed
  rcases h : findMaxI (rotateClose fs lg) lg ((rotateClose fs lg).files.length + 1) 0 none
    with _ | m <;>
    simp [h, cascade_closed]

/-! ### Claim theorems -/

/-- C1: a flush marker (token with nil logger) performs no write and
changes no actor state, and in the sequential FIFO actor loop its
acknowledgment is emitted exactly after every event of every request
submitted before it — so a caller blocked on the marker's channel resumes
only once all earlier requests are fully processed. -/
theorem C1_flush_marker_is_fifo_barrier (hdr : String) (s : ActorState)
    (pre post : List LogToken) :
    actorStep hdr (runQueue hdr s pre).1 flushToken = ((runQueue hdr s pre).1, [Event.acked])
    ∧ (runQueue hdr s (pre ++ flushToken :: post)).1
        = (runQueue hdr (runQueue hdr s pre).1 post).1
    ∧ (runQueue hdr s (pre ++ flushToken :: post)).2
        = (runQueue hdr s pre).2 ++ Event.acked :: (runQueue hdr (runQueue hdr s pre).1 post).2 := by
  have hstep : ∀ s' : ActorState, actorStep hdr s' flushToken = (s', [Event.acked]) :=
    fun s' => rfl
  refine ⟨hstep _, ?_, ?_⟩
  · rw [runQueue_append]
    simp only [runQueue, hstep]
  · rw [runQueue_append]
    simp only [runQueue, hstep]
    simp

/-- C2: the pre-write rotation check is a no-op exactly
when `maxSize <= 0` or `written <= maxSize`; when it fires and the reopen
succeeds it resets `written` to zero; `NewFileLogger` clamps a negative
`maxSize` to -1; and with every stored logger rotation-disabled the actor
never creates (or removes) any file name — in particular no `<path>.0`
retired segment ever appears, however many messages are written. -/
theorem C2_rotation_noop_iff_disabled_or_below (fs : FS) (lg : Logger) :
    (refresh fs lg = ⟨fs, lg, false, false⟩ ↔ (lg.maxSize ≤ 0 ∨ lg.written ≤ lg.maxSize))
    ∧ (¬(lg.maxSize ≤ 0 ∨ lg.written ≤ lg.maxSize) → (refresh fs lg).err = false →
        (refresh fs lg).lg.written = 0)
    ∧ (∀ (pfx p : String) (lv ms : Int) (gz : Bool) (fs1 : FS) (lg1 : Logger), ms < 0 →
        NewFileLogger fs pfx p lv ms gz = some (fs1, lg1) → lg1.maxSize = -1)
    ∧ (∀ (hdr : String) (s : ActorState) (queue : List LogToken),
        (∀ lid lg', lookupLg s.loggers lid = some lg' → lg'.maxSize ≤ 0) →
        ∀ n, (runQueue hdr s queue).1.fs.statExists n = s.fs.statExists n) := by
  refine ⟨⟨?_, refresh_of_noop fs lg⟩, ?_, ?_, ?_⟩
  · intro heq
    by_contra hc
    rcases hoc : (rotateRenamed fs lg).openCreateAppend (FName.base lg.filepath)
      with _ | ⟨fs4, ino⟩
    · rw [refresh_rotate_open_fail fs lg hc hoc] at heq
      simp only [Refreshed.mk.injEq] at heq
      exact absurd heq.2.2.1 (by simp)
    · rw [refresh_rotate_open_ok fs lg fs4 ino hc hoc] at heq
      simp only [Refreshed.mk.injEq] at heq
      have hcg := congrArg Logger.written heq.2.1
      simp only [Logger.mk.injEq] at hcg
      push_neg at hc
      omega
  · intro hc herr
    rcases hoc : (rotateRenamed fs lg).openCreateAppend (FName.base lg.filepath)
      with _ | ⟨fs4, ino⟩
    · rw [refresh_rotate_open_fail fs lg hc hoc] at herr
      simp at herr
    · rw [refresh_rotate_open_ok fs lg fs4 ino hc hoc]
  · intro pfx p lv ms gz fs1 lg1 hms h
    unfold NewFileLogger at h
    cases hoc : fs.openCreateAppend (FName.base p) with
    | none => rw [hoc] at h; simp at h
    | some r =>
      obtain ⟨fs', ino⟩ := r
      rw [hoc] at h
      simp only [Option.some.injEq, Prod.mk.injEq] at h
      rw [← h.2]
      simp [hms]
  · intro hdr s queue
    induction queue generalizing s with
    | nil => intro hdis n; rfl
    | cons t ts ih =>
      intro hdis n
      have hstep := actorStep_disabled_preserves hdr s t hdis
      simp only [runQueue]
      rw [ih _ hstep.2 n, hstep.1 n]

/-- C3: when rotation fires, the probe loop (over the `.gz` names exactly
when compression is enabled) reports `maxIndex = m` on a contiguous
retired chain `0..m`, and `none` on an empty chain; after `refresh`,
segment `i+1` holds exactly what segment `i` held before for every
`i <= m` (the descending cascade clobbers no not-yet-moved file), and
`<path>.0` holds the just-closed active file. -/
theorem C3_cascade_rename_descending (fs : FS) (lg : Logger)
    (hms : 0 < lg.maxSize) (hw : lg.maxSize < lg.written)
    (hbase : (fs.lookup (FName.base lg.filepath)).isSome = true) :
    (∀ m, (∀ i, i ≤ m → fs.statExists (segName lg i) = true) →
        fs.statExists (segName lg (m + 1)) = false →
        findMaxI fs lg (fs.files.length + 1) 0 none = some m
        ∧ (∀ i, i ≤ m →
            (refresh fs lg).fs.lookup (segName lg (i + 1)) = fs.lookup (segName lg i))
        ∧ (refresh fs lg).fs.lookup (FName.idx lg.filepath 0)
            = fs.lookup (FName.base lg.filepath))
    ∧ (fs.statExists (segName lg 0) = false →
        findMaxI fs lg (fs.files.length + 1) 0 none = none
        ∧ (refresh fs lg).fs.lookup (FName.idx lg.filepath 0)
            = fs.lookup (FName.base lg.filepath)) := by
  have hc : ¬(lg.maxSize ≤ 0 ∨ lg.written ≤ lg.maxSize) := by omega
  have hrn : ∀ n, n ≠ FName.base lg.filepath →
      (refresh fs lg).fs.lookup n = (rotateRenamed fs lg).lookup n := by
    rcases hoc : (rotateRenamed fs lg).openCreateAppend (FName.base lg.filepath)
      with _ | ⟨fs4, ino⟩
    · rw [refresh_rotate_open_fail fs lg hc hoc]
      intro n hn
      rfl
    · rw [refresh_rotate_open_ok fs lg fs4 ino hc hoc]
      intro n hn
      exact FS.lookup_openCreateAppend_other _ _ _ _ _ hoc hn
  obtain ⟨d, hd⟩ := Option.isSome_iff_exists.mp hbase
  have hb0 : FName.idx lg.filepath 0 ≠ FName.base lg.filepath := by simp
  constructor
  · intro m hex hmiss
    have hflen : m + 1 ≤ fs.files.length := chain_le_files_length fs lg m hex
    have hex1 : ∀ i, i ≤ m → (rotateClose fs lg).statExists (segName lg i) = true := by
      intro i hi
      rw [statExists_rotateClose]
      exact hex i hi
    have hmiss1 : (rotateClose fs lg).statExists (segName lg (m + 1)) = false := by
      rw [statExists_rotateClose]
      exact hmiss
    have hm1 : findMaxI (rotateClose fs lg) lg ((rotateClose fs lg).files.length + 1) 0 none
        = some m := by
      rw [findMaxI_spec (rotateClose fs lg) lg m hex1 hmiss1 _ 0 none
        (by rw [files_rotateClose]; omega) (by omega)]
      simp
    have hrr : rotateRenamed fs lg
        = (cascade lg (rotateClose fs lg) m).rename
            (FName.base lg.filepath) (FName.idx lg.filepath 0) := by
      unfold rotateRenamed
      rw [hm1]
    have hall1 : ∀ i, i ≤ m → ((rotateClose fs lg).lookup (segName lg i)).isSome = true := by
      intro i hi
      have hei := hex1 i hi
      unfold FS.statExists at hei
      exact hei
    refine ⟨?_, ?_, ?_⟩
    · rw [findMaxI_spec fs lg m hex hmiss _ 0 none (by omega) (by omega)]
      simp
    · intro i hi
      rw [hrn _ (segName_ne_base lg (i + 1) lg.filepath), hrr,
        FS.lookup_rename_other _ _ _ _ (segName_ne_base lg (i + 1) lg.filepath)
          (segName_ne_idx0_of_pos lg (i + 1) lg.filepath (by omega)),
        cascade_shift lg m (rotateClose fs lg) hall1 i hi, lookup_rotateClose]
    · rw [hrn _ hb0, hrr]
      have hdc : (cascade lg (rotateClose fs lg) m).lookup (FName.base lg.filepath)
          = some d := by
        rw [cascade_lookup_other lg m _ _ (fun j hj => (segName_ne_base lg j lg.filepath).symm),
          lookup_rotateClose]
        exact hd
      rw [FS.lookup_rename_target _ _ _ _ hdc, hd]
  · intro h0
    have h01 : (rotateClose fs lg).statExists (segName lg 0) = false := by
      rw [statExists_rotateClose]
      exact h0
    have hm0 : findMaxI (rotateClose fs lg) lg ((rotateClose fs lg).files.length + 1) 0 none
        = none := by
      simp [findMaxI, h01]
    have hrr0 : rotateRenamed fs lg
        = (rotateClose fs lg).rename (FName.base lg.filepath) (FName.idx lg.filepath 0) := by
      unfold rotateRenamed
      rw [hm0]
    refine ⟨by simp [findMaxI, h0], ?_⟩
    rw [hrn _ hb0, hrr0,
      FS.lookup_rename_target _ _ _ _ (by rw [lookup_rotateClose]; exact hd), hd]

/-- C8: every emit call submits nothing exactly when its level is
strictly below the logger's threshold; a WARN-threshold logger drops
DEBUG and INFO and passes WARN, ERROR, FATAL. -/
theorem C8_level_threshold_filtering (lg : Logger) (lid : Nat) (msg : String) :
    (Debugf lg lid msg = none ↔ LOG_LEVEL_DEBUG < lg.level)
    ∧ (Infof lg lid msg = none ↔ LOG_LEVEL_INFO < lg.level)
    ∧ (Warnf lg lid msg = none ↔ LOG_LEVEL_WARN < lg.level)
    ∧ (Errorf lg lid msg = none ↔ LOG_LEVEL_ERROR < lg.level)
    ∧ ((Fatalf lg lid msg).token = none ↔ LOG_LEVEL_FATAL < lg.level)
    ∧ (lg.level = LOG_LEVEL_WARN →
        Debugf lg lid msg = none ∧ Infof lg lid msg = none
        ∧ (Warnf lg lid msg).isSome = true ∧ (Errorf lg lid msg).isSome = true
        ∧ ((Fatalf lg lid msg).token).isSome = true) := by
  refine ⟨?_, ?_, ?_, ?_, ?_, ?_⟩
  · by_cases h : LOG_LEVEL_DEBUG < lg.level <;> simp [Debugf, printfStep, h]
  · by_cases h : LOG_LEVEL_INFO < lg.level <;> simp [Infof, printfStep, h]
  · by_cases h : LOG_LEVEL_WARN < lg.level <;> simp [Warnf, printfStep, h]
  · by_cases h : LOG_LEVEL_ERROR < lg.level <;> simp [Errorf, printfStep, h]
  · by_cases h : LOG_LEVEL_FATAL < lg.level <;> simp [Fatalf, printfStep, h]
  · intro h
    simp [Debugf, Infof, Warnf, Errorf, Fatalf, printfStep, newLogToken, h,
      LOG_LEVEL_DEBUG, LOG_LEVEL_INFO, LOG_LEVEL_WARN, LOG_LEVEL_ERROR, LOG_LEVEL_FATAL]

/-- C10: if reopening the base path fails during rotation, `refresh`
returns the error with `written` unreset and without installing a new
handle (the logger still holds the just-closed one, whose inode is now
marked closed); the actor loop discards this error, still issues the
write call for the current message and fires its acknowledgment — a
producer is never failed by a rotation error. -/
theorem C10_reopen_failure_swallowed (fs : FS) (lg : Logger)
    (hms : 0 < lg.maxSize) (hw : lg.maxSize < lg.written)
    (hbad : fs.badOpen.contains (FName.base lg.filepath) = true) :
    (refresh fs lg).err = true
    ∧ (refresh fs lg).lg = lg
    ∧ (∀ c, lg.closer = some c → (refresh fs lg).fs.closed.contains c = true)
    ∧ (∀ (hdr : String) (s : ActorState) (lid : Nat) (t : LogToken),
        s.fs = fs → lookupLg s.loggers lid = some lg → t.logger = some lid → t.ch = true →
        ∀ ino, lg.l = some ino →
          (actorStep hdr s t).2
            = [Event.wrote lid (lineBytes lg.pfx hdr (replaceNL t.msg)), Event.acked]
          ∧ lookupLg (actorStep hdr s t).1.loggers lid
              = some { lg with written := lg.written + ((replaceNL t.msg).length : Int) }) := by
  have hc : ¬(lg.maxSize ≤ 0 ∨ lg.written ≤ lg.maxSize) := by omega
  have hoc : (rotateRenamed fs lg).openCreateAppend (FName.base lg.filepath) = none := by
    unfold FS.openCreateAppend
    rw [badOpen_rotateRenamed, hbad]
    simp
  have href := refresh_rotate_open_fail fs lg hc hoc
  refine ⟨by rw [href], by rw [href], ?_, ?_⟩
  · intro c hcl
    rw [href]
    show (rotateRenamed fs lg).closed.contains c = true
    rw [closed_rotateRenamed]
    unfold rotateClose
    rw [hcl]
    simp [FS.closeIno]
  · intro hdr s lid t hsfs hlk htl htc ino hino
    have hr : refresh s.fs lg = ⟨rotateRenamed fs lg, lg, true, lg.enableGz⟩ := by
      rw [hsfs]
      exact href
    constructor
    · simp [actorStep, htl, hlk, hr, hino, htc]
    · simp only [actorStep, htl, hlk, hr, hino]
      exact lookupLg_setLg_self s.loggers lid _ lg hlk

/-- C9: logger construction normalizes any level outside the five defined
constants to DEBUG, so every constructed logger's threshold is one of the
five; `NewLogger` and `NewFileLogger` inherit `newLogger`'s normalized
level. -/
theorem C9_constructed_level_always_defined (x : Int) (pfx : String) :
    ((newLogger pfx x).level = LOG_LEVEL_DEBUG ∨ (newLogger pfx x).level = LOG_LEVEL_INFO
      ∨ (newLogger pfx x).level = LOG_LEVEL_WARN ∨ (newLogger pfx x).level = LOG_LEVEL_ERROR
      ∨ (newLogger pfx x).level = LOG_LEVEL_FATAL)
    ∧ (¬(x = LOG_LEVEL_DEBUG ∨ x = LOG_LEVEL_INFO ∨ x = LOG_LEVEL_WARN ∨ x = LOG_LEVEL_ERROR
          ∨ x = LOG_LEVEL_FATAL) → (newLogger pfx x).level = LOG_LEVEL_DEBUG)
    ∧ (∀ w : Nat, (NewLogger pfx w x).level = (newLogger pfx x).level)
    ∧ (∀ (fs fs1 : FS) (p : String) (ms : Int) (gz : Bool) (lg : Logger),
        NewFileLogger fs pfx p x ms gz = some (fs1, lg) → lg.level = (newLogger pfx x).level) := by
  refine ⟨?_, ?_, fun w => rfl, ?_⟩
  · simp only [newLogger]
    split
    · tauto
    · tauto
  · intro hn
    simp only [newLogger]
    split
    · tauto
    · rfl
  · intro fs fs1 p ms gz lg h
    unfold NewFileLogger at h
    cases hoc : fs.openCreateAppend (FName.base p) with
    | none => rw [hoc] at h; simp at h
    | some r =>
      obtain ⟨fs', ino⟩ := r
      rw [hoc] at h
      simp only [Option.some.injEq, Prod.mk.injEq] at h
      rw [← h.2]

/-! ### Compression-task characterizations -/

theorem compressTask_src_missing (fs : FS) (p : String)
    (h : fs.lookup (FName.idx p 0) = none) : compressTask fs p = fs := by
  simp [compressTask, h]

theorem compressTask_dst_fail (fs : FS) (p : String) (d : FileData)
    (hd : fs.lookup (FName.idx p 0) = some d)
    (hb : fs.badOpen.contains (FName.idxGz p 0) = true) :
    compressTask fs p = fs.remove (FName.idx p 0) := by
  have hbm : FName.idxGz p 0 ∈ fs.badOpen := by simpa using hb
  simp [compressTask, hd, hbm]

theorem compressTask_dst_ok (fs : FS) (p : String) (d : FileData)
    (hd : fs.lookup (FName.idx p 0) = some d)
    (hb : fs.badOpen.contains (FName.idxGz p 0) = false) :
    compressTask fs p
      = ({ fs.setFile (FName.idxGz p 0) ⟨fs.fresh, if fs.gzCopyFails then 0 else d.size⟩ with
           fresh := fs.fresh + 1 }).remove (FName.idx p 0) := by
  have hbm : FName.idxGz p 0 ∉ fs.badOpen := by simpa using hb
  simp [compressTask, hd, hbm]

/-- C4: evidence against the no-collision claim. With compression enabled
and the uncompressed `log.0` (inode 7) still present because its
background compression has not run (no `log.0.gz`), a second rotation
probes only `.gz` names, finds an empty chain, performs no cascade, and
renames the active file onto `log.0` — the first retired segment (inode
7) is overwritten and no file holds it any more. -/
theorem C4_second_rotation_overwrites_uncompressed_segment :
    fsC4.lookup (FName.idx "log" 0) = some ⟨7, 9⟩
    ∧ fsC4.statExists (FName.idxGz "log" 0) = false
    ∧ 0 < lgC4.maxSize ∧ lgC4.maxSize < lgC4.written ∧ lgC4.enableGz = true
    ∧ (refresh fsC4 lgC4).err = false
    ∧ (refresh fsC4 lgC4).fs.lookup (FName.idx "log" 0) = some ⟨10, 5⟩
    ∧ (refresh fsC4 lgC4).fs.files.all (fun e => e.2.ino != 7) = true := by
  decide

/-- C5 counterexample: a `Fatalf` call that passes the threshold submits
its blocking token but raises nothing afterwards — the `panic` after the
wait is commented out in the source the repository builds against. -/
theorem C5_counterexample_fatalf_raises_nothing :
    ((Fatalf lgC5 0 "boom").token).isSome = true
    ∧ (Fatalf lgC5 0 "boom").raisesAfter = false := by
  decide

/-- C5 amended: a `Fatalf` call passing the threshold submits a token
carrying an acknowledgment channel — the caller blocks until the actor
has written exactly this message (the write event precedes the ack it
waits on) — and then returns normally, signalling no terminal condition;
only the stale vendored Godeps copy of `logg` still panics. -/
theorem C5_amended_fatalf_blocks_until_written_no_panic (lg : Logger) (lid : Nat) (msg : String)
    (hpass : lg.level ≤ LOG_LEVEL_FATAL) :
    ∃ t, (Fatalf lg lid msg).token = some t ∧ t.ch = true
      ∧ (Fatalf lg lid msg).raisesAfter = false
      ∧ (vendoredFatalf lg lid msg).raisesAfter = true
      ∧ ∀ (hdr : String) (s : ActorState) (lg' : Logger),
          lookupLg s.loggers lid = some lg' →
          ∀ ino, (refresh s.fs lg').lg.l = some ino →
            (actorStep hdr s t).2
              = [Event.wrote lid
                  (lineBytes (refresh s.fs lg').lg.pfx hdr (replaceNL t.msg)),
                 Event.acked] := by
  refine ⟨⟨some lid, setMessageTag msg LOG_LEVEL_FATAL, true⟩, ?_, rfl, rfl, rfl, ?_⟩
  · unfold Fatalf printfStep
    rw [if_neg (not_lt.mpr hpass)]
    rfl
  · intro hdr s lg' hlk ino hino
    simp [actorStep, hlk, hino]

/-- C5 witness: the amended theorem applied to a concrete DEBUG-threshold
logger. -/
theorem C5_witness :
    lgC5.level ≤ LOG_LEVEL_FATAL ∧ (Fatalf lgC5 1 "b").raisesAfter = false := by
  obtain ⟨t, h1, h2, h3, h4, h5⟩ :=
    C5_amended_fatalf_blocks_until_written_no_panic lgC5 1 "b" (by decide)
  exact ⟨by decide, h3⟩

/-- C6 counterexample: when the gzip destination `log.0.gz` cannot be
opened, the deferred cleanup still deletes the uncompressed `log.0`, and
no `.gz` appears — the retired segment's data is lost, contradicting the
claim that `.0` is left in place on any compression failure. -/
theorem C6_counterexample_dst_open_failure_deletes_segment :
    fsC6.lookup (FName.idx "log" 0) = some ⟨7, 9⟩
    ∧ fsC6.badOpen.contains (FName.idxGz "log" 0) = true
    ∧ (compressTask fsC6 "log").lookup (FName.idx "log" 0) = none
    ∧ (compressTask fsC6 "log").lookup (FName.idxGz "log" 0) = none := by
  decide

/-- C6 amended: only a failure to open the source leaves the uncompressed
`<path>.0` in place; once the source is open, the deferred cleanup
removes `<path>.0` on every path — destination-open failure (leaving no
`.gz` behind, data lost) and completed or failed copy (a `.gz` entry
present) alike. -/
theorem C6_amended_gz_cleanup_always_removes_opened_source (fs : FS) (p : String) :
    (fs.lookup (FName.idx p 0) = none → compressTask fs p = fs)
    ∧ (∀ d, fs.lookup (FName.idx p 0) = some d →
        (compressTask fs p).lookup (FName.idx p 0) = none
        ∧ (fs.badOpen.contains (FName.idxGz p 0) = true →
            (compressTask fs p).lookup (FName.idxGz p 0) = fs.lookup (FName.idxGz p 0))
        ∧ (fs.badOpen.contains (FName.idxGz p 0) = false →
            ((compressTask fs p).lookup (FName.idxGz p 0)).isSome = true)) := by
  refine ⟨compressTask_src_missing fs p, ?_⟩
  intro d hd
  have hne : FName.idxGz p 0 ≠ FName.idx p 0 := by simp
  by_cases hb : fs.badOpen.contains (FName.idxGz p 0) = true
  · rw [compressTask_dst_fail fs p d hd hb, FS.remove_eq]
    refine ⟨FS.lookup_erase_self _ _, fun _ => FS.lookup_erase_ne _ _ _ hne, fun hbf => ?_⟩
    rw [hb] at hbf
    cases hbf
  · have hb' : fs.badOpen.contains (FName.idxGz p 0) = false := by
      cases hcb : fs.badOpen.contains (FName.idxGz p 0)
      · rfl
      · exact absurd hcb hb
    rw [compressTask_dst_ok fs p d hd hb', FS.remove_eq]
    refine ⟨FS.lookup_erase_self _ _, fun htb => absurd htb hb, fun _ => ?_⟩
    rw [FS.lookup_erase_ne _ _ _ hne]
    show ((fs.setFile (FName.idxGz p 0)
      ⟨fs.fresh, if fs.gzCopyFails then 0 else d.size⟩).lookup (FName.idxGz p 0)).isSome = true
    rw [FS.lookup_setFile_self]
    rfl

/-- C6 witness: the amended theorem applied where the destination opens
fine — the `.gz` appears and `.0` is removed. -/
theorem C6_witness :
    fsW6.lookup (FName.idx "log" 0) = some ⟨7, 9⟩
    ∧ (compressTask fsW6 "log").lookup (FName.idx "log" 0) = none
    ∧ ((compressTask fsW6 "log").lookup (FName.idxGz "log" 0)).isSome = true := by
  have h := (C6_amended_gz_cleanup_always_removes_opened_source fsW6 "log").2 ⟨7, 9⟩ (by decide)
  exact ⟨by decide, h.1, h.2.2 (by decide)⟩

/-- C7 counterexample: for a concrete message ("hi", 13-byte prefix,
27-byte timestamp header) the actor writes 43 bytes to the active handle
but adds only 2 (the re-indented message body) to `written` — the
increment does not equal the bytes written. -/
theorem C7_counterexample_increment_differs_from_bytes :
    (actorStep hdrC7 sC7 ⟨some 0, "hi", false⟩).2 = [Event.wrote 0 43]
    ∧ (lookupLg (actorStep hdrC7 sC7 ⟨some 0, "hi", false⟩).1.loggers 0).map Logger.written
        = some 2
    ∧ ¬((2 : Int) = 43) := by
  decide

/-- C7 amended: the amount added to `written` for a processed message is
exactly the byte length of the re-indented message body; the bytes put on
the active handle additionally include the prefix, the timestamp header
and the trailing newline, and are not counted. -/
theorem C7_amended_written_counts_reindented_body_only (hdr : String) (s : ActorState)
    (lid : Nat) (t : LogToken) (lg : Logger) (htl : t.logger = some lid)
    (hlk : lookupLg s.loggers lid = some lg) (ino : Nat)
    (hino : (refresh s.fs lg).lg.l = some ino) :
    lookupLg (actorStep hdr s t).1.loggers lid
      = some { (refresh s.fs lg).lg with
               written := (refresh s.fs lg).lg.written + ((replaceNL t.msg).length : Int) }
    ∧ (actorStep hdr s t).2.head?
        = some (Event.wrote lid (lineBytes (refresh s.fs lg).lg.pfx hdr (replaceNL t.msg))) := by
  constructor
  · simp only [actorStep, htl, hlk, hino]
    exact lookupLg_setLg_self s.loggers lid _ lg hlk
  · cases htc : t.ch <;> simp [actorStep, htl, hlk, hino, htc]

/-- C7 witness: the amended theorem applied to the concrete state. -/
theorem C7_witness :
    (actorStep hdrC7 sC7 ⟨some 0, "hi", false⟩).2.head?
      = some (Event.wrote 0 (lineBytes (refresh sC7.fs lgC7).lg.pfx hdrC7 (replaceNL "hi"))) :=
  (C7_amended_written_counts_reindented_body_only hdrC7 sC7 0 ⟨some 0, "hi", false⟩ lgC7 rfl
    (by decide) 10 (by decide)).2

/-- C2 witness: the no-op/reset conjuncts applied to a rotating logger,
and the disabled-rotation invariant applied to a `maxSize = -1` logger
processing a message and a flush. -/
theorem C2_witness :
    ((refresh fsW3 lgW3).err = false → (refresh fsW3 lgW3).lg.written = 0)
    ∧ (runQueue "h" sW2 [⟨some 0, "m", false⟩, flushToken]).1.fs.statExists
        (FName.idx "log" 0) = sW2.fs.statExists (FName.idx "log" 0) := by
  constructor
  · exact (C2_rotation_noop_iff_disabled_or_below fsW3 lgW3).2.1 (by decide)
  · refine (C2_rotation_noop_iff_disabled_or_below fsW3 lgW3).2.2.2 "h" sW2 _ ?_ _
    intro lid lg' h
    have h' : lookupLg [(0, lgW2)] lid = some lg' := h
    by_cases h0 : (0 : Nat) = lid
    · rw [lookupLg_cons, if_pos h0] at h'
      injection h' with h'
      rw [← h']
      decide
    · rw [lookupLg_cons, if_neg h0] at h'
      simp [lookupLg] at h'

/-- C2 counterexample: when rotation fires but reopening the base path
fails, `refresh` returns without resetting `written` — the claim's
unconditional "otherwise it rotates and resets bytesWrittenSinceRotation
to zero" does not hold on this state. -/
theorem C2_counterexample_reopen_failure_skips_reset :
    ¬(lgW10.maxSize ≤ 0 ∨ lgW10.written ≤ lgW10.maxSize)
    ∧ (refresh fsW10 lgW10).lg.written = 2 ∧ ¬((2 : Int) = 0) := by
  decide

/-- C3 witness: rotation over the concrete one-segment chain. -/
theorem C3_witness :
    findMaxI fsW3 lgW3 (fsW3.files.length + 1) 0 none = some 0
    ∧ (refresh fsW3 lgW3).fs.lookup (FName.idx "log" 0) = fsW3.lookup (FName.base "log") := by
  have hex : ∀ i, i ≤ 0 → fsW3.statExists (segName lgW3 i) = true := by
    intro i hi
    have h0 : i = 0 := Nat.le_zero.mp hi
    subst h0
    decide
  have h := (C3_cascade_rename_descending fsW3 lgW3 (by decide) (by decide) (by decide)).1
    0 hex (by decide)
  exact ⟨h.1, h.2.2⟩

/-- C8 witness: the WARN-threshold instance. -/
theorem C8_witness :
    lgW8.level = LOG_LEVEL_WARN
    ∧ Debugf lgW8 0 "x" = none ∧ Infof lgW8 0 "x" = none
    ∧ (Warnf lgW8 0 "x").isSome = true := by
  have h := (C8_level_threshold_filtering lgW8 0 "x").2.2.2.2.2 (by decide)
  exact ⟨by decide, h.1, h.2.1, h.2.2.1⟩

/-- C9 witness: the undefined level 5 is normalized to DEBUG. -/
theorem C9_witness :
    ¬((5 : Int) = LOG_LEVEL_DEBUG ∨ (5 : Int) = LOG_LEVEL_INFO ∨ (5 : Int) = LOG_LEVEL_WARN
        ∨ (5 : Int) = LOG_LEVEL_ERROR ∨ (5 : Int) = LOG_LEVEL_FATAL)
    ∧ (newLogger "p" 5).level = LOG_LEVEL_DEBUG :=
  ⟨by decide, (C9_constructed_level_always_defined 5 "p").2.1 (by decide)⟩

/-- C10 witness: a concrete rotation whose reopen fails; the error is
returned, the logger untouched, and the actor still writes and acks. -/
theorem C10_witness :
    (refresh fsW10 lgW10).err = true ∧ (refresh fsW10 lgW10).lg = lgW10
    ∧ (actorStep "h" ⟨fsW10, [(0, lgW10)]⟩ ⟨some 0, "m", true⟩).2
        = [Event.wrote 0 (lineBytes lgW10.pfx "h" (replaceNL "m")), Event.acked] := by
  have h := C10_reopen_failure_swallowed fsW10 lgW10 (by decide) (by decide) (by decide)
  exact ⟨h.1, h.2.1,
    (h.2.2.2 "h" ⟨fsW10, [(0, lgW10)]⟩ 0 ⟨some 0, "m", true⟩ rfl (by decide) rfl rfl 10
      (by decide)).1⟩

end Logg
